import Mathlib

/-
Verification of the pokeIV planning engine (pokeIV.py).

Shallow embedding conventions:
  * Python dicts keyed by str(number) become association lists keyed by ℕ
    (the keys are always decimal renderings of integers, so ℕ keys are
    faithful; the extra literal key written into the evolve-count dict for
    the aggregate total is kept as a separate component of a pair, since it
    can never collide with a numeric key).
  * Candy amounts and evolve counts are ℚ: the script divides candy by cost
    without flooring and carries the fractional value.
  * A Python KeyError / NameError that the script does not catch is an
    explicit error value; a KeyError swallowed by a bare except is an
    Option-none that skips the record.
  * The remote api calls return values the script never inspects; the loops
    take an outcome oracle parameter whose values are discarded exactly as
    the script discards the api.call() results.
  * Loops whose termination is not structural take a fuel parameter.
-/

set_option maxRecDepth 100000

namespace PokeIV

/-- One owned creature instance, as assembled by the snapshot builder
(the anonymous attribute-bag object built in pokeIV.py).  The display name
is looked up but only printed, so it is not stored. -/
structure Pok where
  id : ℕ
  number : ℕ
  family : ℕ
  stamina : ℕ
  attack : ℕ
  defense : ℕ
  iv : ℚ
  cp : ℕ
  candy : ℚ
  cost : Option ℚ
  deriving DecidableEq

/-- Uncaught Python-level failures of the script, plus fuel exhaustion of
the embedding (the source loop would still be running). -/
inductive PyError where
  | nameError
  | keyError
  | fuelOut
  deriving DecidableEq

/-- Dict lookup: value stored at key k, if present (first binding wins;
the construction below never creates duplicate keys). -/
def lookupK {β : Type} (k : ℕ) : List (ℕ × β) → Option β
  | [] => none
  | (k2, v) :: rest => if k2 = k then some v else lookupK k rest

/-- Dict assignment d[k] = v: overwrite the binding if present, append it
otherwise. -/
def setKey {β : Type} (k : ℕ) (v : β) : List (ℕ × β) → List (ℕ × β)
  | [] => [(k, v)]
  | (k2, v2) :: rest => if k2 = k then (k, v) :: rest else (k2, v2) :: setKey k v rest

/-- Build a dict from a list of pairs (later pairs overwrite earlier ones,
as Python dict(list) does). -/
def dictOf {β : Type} (pairs : List (ℕ × β)) : List (ℕ × β) :=
  pairs.foldl (fun acc kv => setKey kv.1 kv.2 acc) []

/-- Stable sort by iv descending: pokemon.sort(key iv, reverse=True). -/
def sortByIvDesc (l : List Pok) : List Pok :=
  List.insertionSort (fun a b => b.iv ≤ a.iv) l

/-- Stable sort by iv ascending: extras.sort(key iv). -/
def sortByIvAsc (l : List Pok) : List Pok :=
  List.insertionSort (fun a b => a.iv ≤ b.iv) l

/-- The inner while loop of get_evolve_counts: repeat
totalCandy += 2; extraCandy = extraCandy/cost + 2 while extraCandy/cost >= 1,
returning the final totalCandy.  Fuel-indexed; none means the loop has not
exited within the given number of iterations. -/
def cascade (cost : ℚ) : ℕ → ℚ → ℚ → Option ℚ
  | 0, _, _ => none
  | fuel + 1, totalCandy, extraCandy =>
    if 1 ≤ extraCandy / cost then
      cascade cost fuel (totalCandy + 2) (extraCandy / cost + 2)
    else
      some totalCandy

/-- Body of get_evolve_counts: walk the pokemon, and for the first
base-form individual of each family that has an evolve cost, run the
refund cascade on the family candy; record totalCandy/cost when positive
and accumulate the aggregate total. -/
def evolveAcc (fuel : ℕ) : List Pok → List (ℕ × ℚ) → ℚ → Option (List (ℕ × ℚ) × ℚ)
  | [], evolves, total => some (evolves, total)
  | p :: rest, evolves, total =>
    if p.number = p.family ∧ lookupK p.number evolves = none then
      match p.cost with
      | none => evolveAcc fuel rest evolves total
      | some cost =>
        let extraCandy := (p.candy / cost) * 2
        let totalCandy := p.candy + extraCandy
        match cascade cost fuel totalCandy extraCandy with
        | none => none
        | some tc =>
          if 0 < tc / cost then
            evolveAcc fuel rest (setKey p.number (tc / cost) evolves) (total + tc / cost)
          else
            evolveAcc fuel rest evolves total
    else
      evolveAcc fuel rest evolves total

/-- get_evolve_counts(pokemon): the per-family affordable-evolve dict and
the aggregate total (stored in the source under the extra dict key that is
kept separate here). -/
def get_evolve_counts (fuel : ℕ) (pokemon : List Pok) : Option (List (ℕ × ℚ) × ℚ) :=
  evolveAcc fuel pokemon [] 0

/-- Body of get_unique_counts. -/
def uniqueAcc : List Pok → List (ℕ × ℤ) → List (ℕ × ℤ)
  | [], uniques => uniques
  | p :: rest, uniques =>
    if p.number = p.family then
      match lookupK p.number uniques with
      | some n => uniqueAcc rest (setKey p.number (n + 1) uniques)
      | none => uniqueAcc rest (setKey p.number 1 uniques)
    else
      uniqueAcc rest uniques

/-- get_unique_counts(pokemon): how many individuals of each species are
their own family's base form. -/
def get_unique_counts (pokemon : List Pok) : List (ℕ × ℤ) :=
  uniqueAcc pokemon []

/-- Body of get_needed_counts. -/
def neededAcc (evolves : List (ℕ × ℚ)) (uniques : List (ℕ × ℤ)) :
    List Pok → List (ℕ × ℚ) → List (ℕ × ℚ)
  | [], needed => needed
  | p :: rest, needed =>
    match lookupK p.number evolves, lookupK p.number uniques with
    | some e, some u => neededAcc evolves uniques rest (setKey p.number (e - (u : ℚ)) needed)
    | _, _ => neededAcc evolves uniques rest needed

/-- get_needed_counts(pokemon, uniques, evolves):
needed[id] = evolves[id] - uniques[id] for ids present in both dicts. -/
def get_needed_counts (pokemon : List Pok) (evolves : List (ℕ × ℚ))
    (uniques : List (ℕ × ℤ)) : List (ℕ × ℚ) :=
  neededAcc evolves uniques pokemon []

/-- get_above_iv(pokemon, ivmin): sort by iv descending, keep everything
whose iv passes the minimum. -/
def get_above_iv (pokemon : List Pok) (ivmin : ℚ) : List Pok :=
  if pokemon.isEmpty then []
  else (sortByIvDesc pokemon).filter (fun p => decide (ivmin ≤ p.iv))

/-- Body of get_best_pokemon.  A duplicate of an already-kept species that
fails the iv test reaches the branch reading the unbound names config and
cp_override (source line 322), which raises NameError. -/
def bestAcc (ivmin : ℚ) : List Pok → List Pok → Except PyError (List Pok)
  | [], best => Except.ok best
  | p :: rest, best =>
    if !(best.any (fun x => x.number == p.number)) then
      bestAcc ivmin rest (best ++ [p])
    else if ivmin ≤ p.iv then
      bestAcc ivmin rest (best ++ [p])
    else
      Except.error PyError.nameError

/-- get_best_pokemon(pokemon, ivmin): keep the first (best) individual of
every species; keep duplicates only when they pass the iv minimum; the
fallback cp-override branch crashes on unbound names. -/
def get_best_pokemon (pokemon : List Pok) (ivmin : ℚ) : Except PyError (List Pok) :=
  if pokemon.isEmpty then Except.ok []
  else bestAcc ivmin (sortByIvDesc pokemon) []

/-- list(set(pokemon) - set(best)): the individuals not selected
(object identity in the source; records are compared by value here, and the
individuals carry distinct remote ids). -/
def setDiff (pokemon best : List Pok) : List Pok :=
  pokemon.filter (fun p => !(best.contains p))

/-- A creature record found inside the nested payload: the fields read by
_add_pokemon.  The substats may be absent (defaulted to 0); cp absent makes
node["cp"] raise the (swallowed) KeyError. -/
structure CreatureNode where
  id : ℕ
  pokemon_id : ℕ
  individual_stamina : Option ℕ
  individual_attack : Option ℕ
  individual_defense : Option ℕ
  cp : Option ℕ
  deriving DecidableEq

/-- A family currency record found inside the payload. -/
structure FamilyNode where
  family_id : ℕ
  candy : Option ℕ
  deriving DecidableEq

/-- One payload node visited by the object-hook traversal of _find_node:
it may carry a creature record and/or a family currency record. -/
structure PayloadNode where
  pokemon_data : Option CreatureNode
  pokemon_family : Option FamilyNode
  deriving DecidableEq

/-- The reference catalog: names.tsv, families.tsv, evolves.tsv keyed by
species id. -/
structure Catalog where
  names : List (ℕ × String)
  families : List (ℕ × ℕ)
  evolves : List (ℕ × ℤ)

/-- _add_pokemon(node): build one Pok record.  Every none short-circuit is
a KeyError raised inside _add_pokemon and swallowed by the bare
except KeyError of _find_node, so the record is silently dropped.  The
lookups happen in source order: names, families, (substats defaulted),
cp, evolves.  The display name is looked up for the KeyError semantics but
not stored.  Candy is attached later and starts at 0. -/
def add_pokemon (cat : Catalog) (node : CreatureNode) : Option Pok :=
  match lookupK node.pokemon_id cat.names with
  | none => none
  | some _ =>
    match lookupK node.pokemon_id cat.families with
    | none => none
    | some family =>
      match node.cp with
      | none => none
      | some cp =>
        match lookupK node.pokemon_id cat.evolves with
        | none => none
        | some costE =>
          some { id := node.id, number := node.pokemon_id, family := family,
                 stamina := node.individual_stamina.getD 0,
                 attack := node.individual_attack.getD 0,
                 defense := node.individual_defense.getD 0,
                 iv := (((node.individual_stamina.getD 0 : ℚ) +
                         (node.individual_attack.getD 0 : ℚ) +
                         (node.individual_defense.getD 0 : ℚ)) / 45) * 100,
                 cp := cp, candy := 0,
                 cost := if 0 < costE then some (costE : ℚ) else none }

/-- The creature records collected by the traversal, in visit order. -/
def collectData (cat : Catalog) : List PayloadNode → List Pok
  | [] => []
  | n :: rest =>
    match n.pokemon_data with
    | some cnode =>
      match add_pokemon cat cnode with
      | some pok => pok :: collectData cat rest
      | none => collectData cat rest
    | none => collectData cat rest

/-- The family currency pairs collected by _add_candy, in visit order
(a missing candy field defaults to 0). -/
def collectCandy : List PayloadNode → List (ℕ × ℕ)
  | [] => []
  | n :: rest =>
    match n.pokemon_family with
    | some fn => (fn.family_id, fn.candy.getD 0) :: collectCandy rest
    | none => collectCandy rest

/-- The final loop of get_pokemon: d.candy = candy[str(d.family)].  A
family missing from the candy dict raises an uncaught KeyError. -/
def assignCandy (candyMap : List (ℕ × ℕ)) : List Pok → Except PyError (List Pok)
  | [] => Except.ok []
  | p :: rest =>
    match lookupK p.family candyMap with
    | none => Except.error PyError.keyError
    | some c =>
      match assignCandy candyMap rest with
      | Except.error e => Except.error e
      | Except.ok rest2 => Except.ok ({ p with candy := (c : ℚ) } :: rest2)

/-- get_pokemon(response): the inventory snapshot builder.  The payload is
modelled as the sequence of dict nodes the object-hook traversal visits. -/
def get_pokemon (cat : Catalog) (nodes : List PayloadNode) : Except PyError (List Pok) :=
  assignCandy (dictOf (collectCandy nodes)) (collectData cat nodes)

/-- State of the Evolving loop of main: the remaining local collection,
the shared evolve/unique dicts, the step counter, the upgrade mutations
issued so far (in order), and whether an uncaught KeyError has been
raised (which aborts the whole run). -/
structure EvoState where
  pokemon : List Pok
  evolves : List (ℕ × ℚ)
  uniques : List (ℕ × ℤ)
  count : ℕ
  issued : List Pok
  err : Bool
  deriving DecidableEq

/-- One candidate of the inner for-loop of the Evolving pass.  When the
guard evolves[id] - needed[id] > 0 holds, the upgrade mutation is issued
(api.evolve_pokemon + api.call, result discarded), then evolves[id] -= 1,
uniques[id] -= 1, pokemon.remove(p), count += 1.  A missing needed[id]
raises before the mutation; a missing uniques[id] raises after the
mutation and after the evolves decrement.  The returned Bool is the
evolved flag contribution of this candidate. -/
def evoStep (needed : List (ℕ × ℚ)) (p : Pok) (s : EvoState) : EvoState × Bool :=
  if s.err then (s, false) else
  match lookupK p.number s.evolves with
  | none => (s, false)
  | some e =>
    match lookupK p.number needed with
    | none => ({ s with err := true }, false)
    | some n =>
      if 0 < e - n then
        match lookupK p.number s.uniques with
        | none =>
          ({ s with issued := s.issued ++ [p],
                    evolves := setKey p.number (e - 1) s.evolves,
                    err := true }, false)
        | some u =>
          ({ s with pokemon := s.pokemon.erase p,
                    evolves := setKey p.number (e - 1) s.evolves,
                    uniques := setKey p.number (u - 1) s.uniques,
                    count := s.count + 1,
                    issued := s.issued ++ [p] }, true)
      else (s, false)

/-- One full pass of the inner for-loop over a snapshot (pokemon[:]) of the
collection, threading the evolved flag. -/
def evoPass (needed : List (ℕ × ℚ)) : List Pok → EvoState → Bool → EvoState × Bool
  | [], s, evolved => (s, evolved)
  | p :: rest, s, evolved =>
    let r := evoStep needed p s
    evoPass needed rest r.1 (evolved || r.2)

/-- The outer while loop: while evolved and count < max_evolutions, run a
pass over the current collection.  Fuel-indexed (each productive pass
removes at least one individual, so the fuel chosen in run_evolve is never
exhausted). -/
def evoLoop (needed : List (ℕ × ℚ)) (maxe : ℕ) : ℕ → EvoState → Bool → EvoState
  | 0, s, _ => s
  | fuel + 1, s, evolved =>
    if evolved ∧ s.count < maxe then
      let r := evoPass needed s.pokemon s false
      evoLoop needed maxe fuel r.1 r.2
    else s

/-- The Evolving phase of main: sort the collection by iv descending, then
run the while loop with evolved initially true and count 0 (as given in
the state). -/
def run_evolve (needed : List (ℕ × ℚ)) (maxe : ℕ) (s : EvoState) : EvoState :=
  let s0 : EvoState := { s with pokemon := sortByIvDesc s.pokemon }
  evoLoop needed maxe (s0.pokemon.length + 2) s0 true

/-- State of the Transferring loop: the shared evolve/unique dicts carried
over from the Evolving loop, the removal mutations issued so far, and the
uncaught-KeyError flag. -/
structure TransState where
  evolves : List (ℕ × ℚ)
  uniques : List (ℕ × ℤ)
  issued : List Pok
  err : Bool
  deriving DecidableEq

/-- Issue the removal mutation for p (api.release_pokemon + api.call, the
outcome oracle value is discarded exactly as the source discards the
response), then uniques[id] -= 1, which raises KeyError when the id has no
uniques entry. -/
def doTransfer (outcomes : ℕ → Bool) (p : Pok) (s : TransState) : TransState :=
  let _res := outcomes s.issued.length
  let s2 : TransState := { s with issued := s.issued ++ [p] }
  match lookupK p.number s2.uniques with
  | none => { s2 with err := true }
  | some u => { s2 with uniques := setKey p.number (u - 1) s2.uniques }

/-- One candidate of the Transferring loop: transfer when the species is
missing from either dict or uniques[id] > evolves[id]; otherwise skip. -/
def transStep (outcomes : ℕ → Bool) (p : Pok) (s : TransState) : TransState :=
  if s.err then s else
  match lookupK p.number s.evolves, lookupK p.number s.uniques with
  | some e, some u => if (u : ℚ) ≤ e then s else doTransfer outcomes p s
  | some _, none => doTransfer outcomes p s
  | none, _ => doTransfer outcomes p s

/-- The Transferring for-loop over the surplus list. -/
def transLoop (outcomes : ℕ → Bool) : List Pok → TransState → TransState
  | [], s => s
  | p :: rest, s => transLoop outcomes rest (transStep outcomes p s)

/-- The Transferring phase of main: extras.sort(key iv) then the loop. -/
def run_transfer (outcomes : ℕ → Bool) (extras : List Pok) (s : TransState) : TransState :=
  transLoop outcomes (sortByIvAsc extras) s

/-- The configuration surface of main that the planning logic reads. -/
structure Config where
  transfer : Bool
  evolve : Bool
  minimumIV : ℚ
  max_evolutions : ℕ
  hard_minimum : Bool

/-- Observable outcome of one run of main after the snapshot: the
selection, the surplus list, and the final states of the two loops. -/
structure MainResult where
  best : List Pok
  extras : List Pok
  evoFinal : EvoState
  transFinal : TransState
  deriving DecidableEq

/-- Lines 142-205 of main, after the snapshot has been built: select best,
form extras as the set difference, compute the unique/evolve/needed dicts,
run the Evolving loop when configured, then the Transferring loop over the
pre-computed extras (which the Evolving loop never prunes).  An uncaught
KeyError or NameError aborts the run; fuelOut marks a run on which
get_evolve_counts would still be looping. -/
def run_main (fuel : ℕ) (cfg : Config) (outcomes : ℕ → Bool) (pokemon : List Pok) :
    Except PyError MainResult :=
  match (if cfg.hard_minimum then Except.ok (get_above_iv pokemon cfg.minimumIV)
         else get_best_pokemon pokemon cfg.minimumIV) with
  | Except.error e => Except.error e
  | Except.ok best =>
    let extras := setDiff pokemon best
    let uniques := get_unique_counts pokemon
    match get_evolve_counts fuel pokemon with
    | none => Except.error PyError.fuelOut
    | some (evolves, _total) =>
      let needed := get_needed_counts pokemon evolves uniques
      let s0 : EvoState := { pokemon := pokemon, evolves := evolves, uniques := uniques,
                             count := 0, issued := [], err := false }
      let s1 := if cfg.evolve then run_evolve needed cfg.max_evolutions s0 else s0
      if s1.err then Except.error PyError.keyError else
      let t0 : TransState := { evolves := s1.evolves, uniques := s1.uniques,
                               issued := [], err := false }
      let t1 := if cfg.transfer then run_transfer outcomes extras t0 else t0
      if t1.err then Except.error PyError.keyError
      else Except.ok { best := best, extras := extras, evoFinal := s1, transFinal := t1 }

/-- A species whose cached evolve budget strictly exceeds its needed count:
the eligibility the Evolving loop actually tests (against the current
evolve dict) and, by monotonicity, satisfied by the initial dict for every
issued mutation. -/
def budgetOK (needed evolves0 : List (ℕ × ℚ)) (p : Pok) : Prop :=
  ∃ e n, lookupK p.number evolves0 = some e ∧ lookupK p.number needed = some n ∧ 0 < e - n

/-- Pointwise domination of evolve dicts: every binding of m is present in
m0 with a value at least as large (the loop only ever decrements). -/
def evolvesLe (m m0 : List (ℕ × ℚ)) : Prop :=
  ∀ k v, lookupK k m = some v → ∃ v0, lookupK k m0 = some v0 ∧ v ≤ v0

/-- Invariant of the Evolving loop relative to the initial evolve dict m0:
the current dict is dominated by m0 and every issued mutation was for a
species with positive budget in m0. -/
def evoInv (needed m0 : List (ℕ × ℚ)) (s : EvoState) : Prop :=
  evolvesLe s.evolves m0 ∧ ∀ q ∈ s.issued, budgetOK needed m0 q

/-- Concrete family for C1: base form, unit cost 1, family candy 1. -/
def pC1 : Pok :=
  { id := 1, number := 1, family := 1, stamina := 10, attack := 10, defense := 10,
    iv := 90, cp := 100, candy := 1, cost := some 1 }

/-- Concrete collection for C2 and C7: two base-form individuals of one
family with unit cost 4 and family candy 2. -/
def p1C2 : Pok :=
  { id := 1, number := 1, family := 1, stamina := 13, attack := 14, defense := 13,
    iv := 90, cp := 300, candy := 2, cost := some 4 }

/-- Second individual of the C2 family (lower iv). -/
def p2C2 : Pok :=
  { id := 2, number := 1, family := 1, stamina := 7, attack := 8, defense := 7,
    iv := 50, cp := 120, candy := 2, cost := some 4 }

/-- Config for the C2 run: evolving enabled with step cap 1. -/
def cfgC2 : Config :=
  { transfer := false, evolve := true, minimumIV := 101, max_evolutions := 1,
    hard_minimum := true }

/-- Config for the C7 run: evolving enabled with the default step cap. -/
def cfgC7 : Config :=
  { transfer := false, evolve := true, minimumIV := 101, max_evolutions := 71,
    hard_minimum := true }

/-- Evolving-loop start state for the C2/C7 collection, with the dicts main
would compute for it. -/
def s0C2 : EvoState :=
  { pokemon := [p1C2, p2C2], evolves := [(1, 3/4)], uniques := [(1, 2)],
    count := 0, issued := [], err := false }

/-- The needed dict main computes for the C2/C7 collection. -/
def neededC2 : List (ℕ × ℚ) :=
  get_needed_counts [p1C2, p2C2] [(1, 3/4)] [(1, 2)]

/-- Five surplus individuals of one costless base-form species for C3. -/
def extrasC3 : List Pok :=
  [ { id := 31, number := 3, family := 3, stamina := 1, attack := 1, defense := 1,
      iv := 10, cp := 10, candy := 0, cost := none },
    { id := 32, number := 3, family := 3, stamina := 2, attack := 2, defense := 2,
      iv := 20, cp := 20, candy := 0, cost := none },
    { id := 33, number := 3, family := 3, stamina := 3, attack := 3, defense := 3,
      iv := 30, cp := 30, candy := 0, cost := none },
    { id := 34, number := 3, family := 3, stamina := 4, attack := 4, defense := 4,
      iv := 40, cp := 40, candy := 0, cost := none },
    { id := 35, number := 3, family := 3, stamina := 5, attack := 5, defense := 5,
      iv := 50, cp := 50, candy := 0, cost := none } ]

/-- Transferring-loop start state for C3: five base forms owned, the
species absent from the evolve dict (no cost), so all five are eligible. -/
def t0C3 : TransState :=
  { evolves := [], uniques := [(3, 5)], issued := [], err := false }

/-- Outcome oracle for C3: the third remote mutation (index 2) fails,
every other one succeeds. -/
def oC3 : ℕ → Bool := fun k => decide (k ≠ 2)

/-- Two individuals of one species for C4: the second is a duplicate below
the default iv threshold. -/
def p1C4 : Pok :=
  { id := 41, number := 5, family := 5, stamina := 12, attack := 12, defense := 12,
    iv := 80, cp := 200, candy := 0, cost := none }

/-- The below-threshold duplicate for C4. -/
def p2C4 : Pok :=
  { id := 42, number := 5, family := 5, stamina := 6, attack := 6, defense := 6,
    iv := 40, cp := 100, candy := 0, cost := none }

/-- Catalog for C5 that knows species 1 only. -/
def catC5 : Catalog :=
  { names := [(1, "Bulbasaur")], families := [(1, 1)], evolves := [(1, 25)] }

/-- A creature record for C5 whose species 999 is absent from the catalog. -/
def cnodeC5 : CreatureNode :=
  { id := 9, pokemon_id := 999, individual_stamina := some 5, individual_attack := some 5,
    individual_defense := some 5, cp := some 10 }

/-- The payload node carrying the unknown-species creature record. -/
def nodeC5 : PayloadNode :=
  { pokemon_data := some cnodeC5, pokemon_family := none }

/-- Surplus individual for C6: its species has 2 base forms remaining and
only 1 affordable upgrade slot. -/
def pC6 : Pok :=
  { id := 61, number := 7, family := 7, stamina := 5, attack := 5, defense := 5,
    iv := 33, cp := 90, candy := 6, cost := some 6 }

/-- Transferring-loop start state for C6: uniques[7] = 2 > evolves[7] = 1. -/
def t0C6 : TransState :=
  { evolves := [(7, 1)], uniques := [(7, 2)], issued := [], err := false }

/-- C8 collection: one base form with cost 12 and candy 10, plus an
evolved-form individual of the same family that stays in the collection. -/
def p1C8 : Pok :=
  { id := 81, number := 1, family := 1, stamina := 13, attack := 14, defense := 13,
    iv := 90, cp := 500, candy := 10, cost := some 12 }

/-- The evolved-form family member for C8 (number 2, family 1): never an
upgrade candidate, so its candy mirror is observable after the run. -/
def p2C8 : Pok :=
  { id := 82, number := 2, family := 1, stamina := 7, attack := 8, defense := 7,
    iv := 50, cp := 600, candy := 10, cost := none }

/-- Config for the C8 run. -/
def cfgC8 : Config :=
  { transfer := false, evolve := true, minimumIV := 101, max_evolutions := 71,
    hard_minimum := true }

/-- Evolving-loop start state for the C8 collection, with the dicts main
would compute for it. -/
def s0C8 : EvoState :=
  { pokemon := [p1C8, p2C8], evolves := [(1, 35/36)], uniques := [(1, 1)],
    count := 0, issued := [], err := false }

/-- The needed dict main computes for the C8 collection. -/
def neededC8 : List (ℕ × ℚ) :=
  get_needed_counts [p1C8, p2C8] [(1, 35/36)] [(1, 1)]

/-- Two individuals of one species for the C9 counterexample (distinct from
the C4 input). -/
def p1C9 : Pok :=
  { id := 91, number := 8, family := 8, stamina := 11, attack := 10, defense := 11,
    iv := 70, cp := 150, candy := 0, cost := none }

/-- The below-threshold duplicate for C9. -/
def p2C9 : Pok :=
  { id := 92, number := 8, family := 8, stamina := 3, attack := 3, defense := 3,
    iv := 20, cp := 60, candy := 0, cost := none }

/-- A single individual used to witness the C9 partition property. -/
def pW9 : Pok :=
  { id := 93, number := 9, family := 9, stamina := 9, attack := 9, defense := 9,
    iv := 60, cp := 110, candy := 0, cost := none }

/-- C10 collection: two base forms of a family with unit cost 4 and candy
2; the weaker one ends up surplus and is both evolved and transferred. -/
def p1C10 : Pok :=
  { id := 101, number := 1, family := 1, stamina := 13, attack := 14, defense := 13,
    iv := 90, cp := 400, candy := 2, cost := some 4 }

/-- The weak duplicate for C10. -/
def p2C10 : Pok :=
  { id := 102, number := 1, family := 1, stamina := 1, attack := 2, defense := 1,
    iv := 10, cp := 40, candy := 2, cost := some 4 }

/-- Config for the C10 run: both evolving and transferring enabled, hard
minimum 50 so the weak duplicate is surplus. -/
def cfgC10 : Config :=
  { transfer := true, evolve := true, minimumIV := 50, max_evolutions := 71,
    hard_minimum := true }

/-- Dict lookup after dict assignment. -/
lemma lookupK_setKey {β : Type} (k k2 : ℕ) (v : β) (m : List (ℕ × β)) :
    lookupK k (setKey k2 v m) = if k2 = k then some v else lookupK k m := by
  induction m with
  | nil => simp [setKey, lookupK]
  | cons kv rest ih =>
    obtain ⟨k3, v3⟩ := kv
    by_cases h32 : k3 = k2
    · subst h32
      by_cases h2k : k3 = k <;> simp [setKey, lookupK, h2k]
    · by_cases h3k : k3 = k
      · subst h3k
        have h23 : ¬ k2 = k3 := fun h => h32 h.symm
        simp [setKey, lookupK, h32, h23]
      · simp [setKey, lookupK, h32, h3k, ih]

/-- Two booleans agreeing as propositions are equal. -/
lemma bool_eq_of_iff {a b : Bool} (h : a = true ↔ b = true) : a = b := by
  cases a <;> cases b <;> simp_all

/-- With unit cost 1 the refund cascade never exits: the update keeps the
extra candy at least 1 (it grows by 2 each iteration), so the guard
extraCandy/cost >= 1 holds forever and every fuel bound is exhausted. -/
lemma cascade_one_none : ∀ (fuel : ℕ) (tc ec : ℚ), 1 ≤ ec → cascade 1 fuel tc ec = none := by
  intro fuel
  induction fuel with
  | zero => intro tc ec _; rfl
  | succ n ih =>
    intro tc ec h
    have hec : (1 : ℚ) ≤ ec / 1 := by rwa [div_one]
    simp only [cascade, if_pos hec]
    exact ih _ _ (by rw [div_one]; linarith)

/-- C1: the claim says the affordable-upgrades computation terminates for
every positive unit cost and non-negative balance, and returns the exact
fixed-point cascade value for unitCost = 1, balance = 1.  The code instead
never terminates there: with cost 1 the loop guard holds at every
iteration, so get_evolve_counts runs out of any amount of fuel. -/
theorem c1_nontermination : ∀ fuel : ℕ, get_evolve_counts fuel [pC1] = none := by
  intro fuel
  have h : cascade 1 fuel ((1 : ℚ) + 2) 2 = none :=
    cascade_one_none fuel _ _ (by norm_num)
  simp [get_evolve_counts, evolveAcc, pC1, lookupK, h]

/-- C2: the claim says the Evolving loop never issues more than the
configured step cap of upgrade mutations.  With cap 1 and two eligible
individuals, the run issues 2 mutations: the cap is only checked between
passes of the inner for-loop. -/
theorem c2_cap_exceeded :
    (run_main 1 cfgC2 (fun _ => true) [p1C2, p2C2]).toOption.map
      (fun r => (r.evoFinal.issued.length, r.evoFinal.count)) = some (2, 2) ∧
    cfgC2.max_evolutions = 1 := by
  exact ⟨by with_unfolding_all decide, by decide⟩

/-- C3 counterexample: the claim says a failure on the 3rd of 5 eligible
candidates leaves exactly 2 confirmed local deltas and stops the loop.
With an outcome oracle failing the 3rd call, the Transferring loop issues
all 5 removal mutations and applies all 5 unique-count decrements. -/
theorem c3_counterexample :
    (run_transfer oC3 extrasC3 t0C3).issued.length = 5 ∧
    lookupK 3 (run_transfer oC3 extrasC3 t0C3).uniques = some 0 ∧
    ¬ (run_transfer oC3 extrasC3 t0C3).issued.length = 3 ∧
    ¬ lookupK 3 (run_transfer oC3 extrasC3 t0C3).uniques = some 3 := by
  refine ⟨?_, ?_, ?_, ?_⟩ <;> with_unfolding_all decide

/-- The per-candidate transfer step does not depend on the outcome oracle:
the api.call() response is discarded. -/
lemma transStep_outcomes (o o2 : ℕ → Bool) (p : Pok) (s : TransState) :
    transStep o p s = transStep o2 p s := rfl

/-- The Transferring loop does not depend on the outcome oracle. -/
lemma transLoop_outcomes (o o2 : ℕ → Bool) : ∀ (extras : List Pok) (s : TransState),
    transLoop o extras s = transLoop o2 extras s := by
  intro extras
  induction extras with
  | nil => intro s; rfl
  | cons p rest ih =>
    intro s
    simp only [transLoop]
    rw [transStep_outcomes o o2 p s]
    exact ih _

/-- C3 amended: the executor never inspects remote mutation outcomes, so a
failed mutation neither aborts the loop nor is surfaced: the Transferring
loop computes the same state for every outcome oracle, and on the concrete
5-candidate input every oracle yields 5 issued mutations and 5 applied
decrements. -/
theorem c3_outcomes_ignored :
    (∀ (o o2 : ℕ → Bool) (extras : List Pok) (s : TransState),
       transLoop o extras s = transLoop o2 extras s) ∧
    (∀ o : ℕ → Bool, (run_transfer o extrasC3 t0C3).issued.length = 5 ∧
       lookupK 3 (run_transfer o extrasC3 t0C3).uniques = some 0) := by
  refine ⟨transLoop_outcomes, ?_⟩
  intro o
  unfold run_transfer
  rw [transLoop_outcomes o (fun _ => true) (sortByIvAsc extrasC3) t0C3]
  exact ⟨by with_unfolding_all decide, by with_unfolding_all decide⟩

/-- C4: the claim says a duplicate of an already-kept species is placed in
keep or surplus according to the quality threshold (or cp override) and
the operation never raises.  The code raises NameError on the first
duplicate below the threshold: the override branch reads the unbound
names config and cp_override. -/
theorem c4_name_error :
    get_best_pokemon [p1C4, p2C4] 101 = Except.error PyError.nameError := rfl

/-- C5 counterexample: the claim says a creature record with a speciesId
absent from the catalog makes snapshot building fail with no partial
snapshot.  The code instead swallows the KeyError in _find_node and
returns a snapshot with the record silently skipped. -/
theorem c5_counterexample :
    get_pokemon catC5 [nodeC5] = Except.ok [] ∧
    ¬ ∃ e : PyError, get_pokemon catC5 [nodeC5] = Except.error e := by
  constructor
  · rfl
  · rintro ⟨e, he⟩
    rw [show get_pokemon catC5 [nodeC5] = Except.ok [] from rfl] at he
    cases he

/-- C5 amended: a payload node whose creature record references a species
absent from the catalog is silently dropped: the snapshot equals the one
built from the remaining nodes. -/
theorem c5_skip_unknown_species (cat : Catalog) (node : PayloadNode)
    (nodes : List PayloadNode) (hfam : node.pokemon_family = none)
    (hname : ∀ c : CreatureNode, node.pokemon_data = some c →
      lookupK c.pokemon_id cat.names = none) :
    get_pokemon cat (node :: nodes) = get_pokemon cat nodes := by
  have hdata : collectData cat (node :: nodes) = collectData cat nodes := by
    cases hpd : node.pokemon_data with
    | none => simp [collectData, hpd]
    | some c =>
      have hn := hname c hpd
      simp [collectData, hpd, add_pokemon, hn]
  have hcandy : collectCandy (node :: nodes) = collectCandy nodes := by
    simp [collectCandy, hfam]
  unfold get_pokemon
  rw [hdata, hcandy]

/-- C5 witness: the amended statement evaluated on the concrete
unknown-species payload node. -/
theorem c5_witness : get_pokemon catC5 [nodeC5] = get_pokemon catC5 [] :=
  c5_skip_unknown_species catC5 nodeC5 [] rfl (fun c hc => by
    have hc2 : c = cnodeC5 := by
      have : some cnodeC5 = some c := hc
      exact (Option.some.inj this).symm
    subst hc2
    decide)

/-- C6 counterexample: the claim says a surplus individual is skipped when
its species still has more unique base forms remaining than upgrade slots.
Here uniques[7] = 2 > evolves[7] = 1, yet the code issues the removal (the
source transfers exactly when there are more uniques than slots). -/
theorem c6_counterexample :
    lookupK 7 t0C6.uniques = some 2 ∧ lookupK 7 t0C6.evolves = some 1 ∧
    (1 : ℚ) < ((2 : ℤ) : ℚ) ∧
    (run_transfer (fun _ => true) [pC6] t0C6).issued = [pC6] := by
  refine ⟨?_, ?_, ?_, ?_⟩ <;> with_unfolding_all decide

/-- C6 amended: a processed surplus individual is skipped exactly when both
counts are present and the remaining unique base forms do not exceed the
upgrade slots; otherwise its removal mutation is issued and the unique
count for its species number is decremented unconditionally when present
(a missing unique count raises after the mutation is issued). -/
theorem c6_transfer_condition (o : ℕ → Bool) (p : Pok) (s : TransState)
    (herr : s.err = false) :
    ((∃ e u, lookupK p.number s.evolves = some e ∧ lookupK p.number s.uniques = some u ∧
        (u : ℚ) ≤ e) → transStep o p s = s) ∧
    (∀ u : ℤ, lookupK p.number s.uniques = some u →
       (∀ e : ℚ, lookupK p.number s.evolves = some e → e < (u : ℚ)) →
       transStep o p s = { s with issued := s.issued ++ [p], uniques := setKey p.number (u - 1) s.uniques }) ∧
    (lookupK p.number s.uniques = none →
       (transStep o p s).err = true ∧ (transStep o p s).issued = s.issued ++ [p]) := by
  refine ⟨?_, ?_, ?_⟩
  · rintro ⟨e, u, he, hu, hle⟩
    simp [transStep, herr, he, hu, if_pos hle]
  · intro u hu hlt
    cases he : lookupK p.number s.evolves with
    | none => simp [transStep, herr, he, hu, doTransfer]
    | some e =>
      have hnle : ¬ (u : ℚ) ≤ e := not_le.mpr (hlt e he)
      simp [transStep, herr, he, hu, if_neg hnle, doTransfer]
  · intro hu
    cases he : lookupK p.number s.evolves with
    | none => simp [transStep, herr, he, hu, doTransfer]
    | some e => simp [transStep, herr, he, hu, doTransfer]

/-- C6 witness: the amended skip direction evaluated at a concrete state
with uniques at most evolves. -/
theorem c6_witness :
    transStep (fun _ => true) pC6
      { evolves := [(7, 5)], uniques := [(7, 2)], issued := [], err := false } =
      { evolves := [(7, 5)], uniques := [(7, 2)], issued := [], err := false } :=
  (c6_transfer_condition (fun _ => true) pC6
      { evolves := [(7, 5)], uniques := [(7, 2)], issued := [], err := false } rfl).1
    ⟨5, 2, by decide, by decide, by norm_num⟩

/-- C7 counterexample: the claim defines deficit as affordableUpgrades
minus uniqueBaseFormCount and says species with deficit at most 0 are never
upgraded.  For the C2 collection, affordable = 3/4 and uniques = 2, so the
claimed deficit is negative, yet the run issues upgrade mutations: the code
tests evolves[id] - needed[id] > 0, which starts at the unique count. -/
theorem c7_counterexample :
    (∃ ev t, get_evolve_counts 1 [p1C2, p2C2] = some (ev, t) ∧
       lookupK 1 ev = some (3/4)) ∧
    lookupK 1 (get_unique_counts [p1C2, p2C2]) = some 2 ∧
    (3/4 : ℚ) - ((2 : ℤ) : ℚ) ≤ 0 ∧
    (run_main 1 cfgC7 (fun _ => true) [p1C2, p2C2]).toOption.map
      (fun r => r.evoFinal.issued.length) = some 2 := by
  refine ⟨⟨[(1, 3/4)], 3/4, ?_, ?_⟩, ?_, ?_, ?_⟩ <;> with_unfolding_all decide

lemma evolvesLe_refl (m : List (ℕ × ℚ)) : evolvesLe m m :=
  fun _ v h => ⟨v, h, le_refl v⟩

lemma evolvesLe_setKey {m m0 : List (ℕ × ℚ)} (h : evolvesLe m m0)
    {k : ℕ} {e : ℚ} (he : lookupK k m = some e) {v : ℚ} (hv : v ≤ e) :
    evolvesLe (setKey k v m) m0 := by
  intro k2 w hw
  rw [lookupK_setKey] at hw
  by_cases hk : k = k2
  · rw [if_pos hk] at hw
    obtain ⟨v0, h0, hle0⟩ := h k e he
    subst hk
    exact ⟨v0, h0, by rw [← Option.some.inj hw]; linarith⟩
  · rw [if_neg hk] at hw
    exact h k2 w hw

/-- The Evolving step preserves the loop invariant: the evolve dict only
decreases and every issued mutation had positive budget in the initial
dict. -/
lemma evoStep_inv {needed m0 : List (ℕ × ℚ)} {s : EvoState} (p : Pok)
    (h : evoInv needed m0 s) : evoInv needed m0 (evoStep needed p s).1 := by
  obtain ⟨hle, hiss⟩ := h
  by_cases herr : s.err = true
  · simp [evoStep, herr]
    exact ⟨hle, hiss⟩
  · rw [Bool.not_eq_true] at herr
    cases he : lookupK p.number s.evolves with
    | none =>
      simp [evoStep, herr, he]
      exact ⟨hle, hiss⟩
    | some e =>
      cases hn : lookupK p.number needed with
      | none =>
        simp [evoStep, herr, he, hn]
        exact ⟨hle, hiss⟩
      | some n =>
        by_cases hpos : 0 < e - n
        · have hbud : budgetOK needed m0 p := by
            obtain ⟨e0, h0, hle0⟩ := hle p.number e he
            exact ⟨e0, n, h0, hn, by linarith⟩
          have hiss2 : ∀ q ∈ s.issued ++ [p], budgetOK needed m0 q := by
            intro q hq
            rcases List.mem_append.mp hq with hq | hq
            · exact hiss q hq
            · rw [List.mem_singleton.mp hq]
              exact hbud
          cases hu : lookupK p.number s.uniques with
          | none =>
            simp [evoStep, herr, he, hn, hu, hpos]
            exact ⟨evolvesLe_setKey hle he (by linarith), hiss2⟩
          | some u =>
            simp [evoStep, herr, he, hn, hu, hpos]
            exact ⟨evolvesLe_setKey hle he (by linarith), hiss2⟩
        · simp [evoStep, herr, he, hn, hpos]
          exact ⟨hle, hiss⟩

/-- A full Evolving pass preserves the loop invariant. -/
lemma evoPass_inv {needed m0 : List (ℕ × ℚ)} : ∀ (l : List Pok) (s : EvoState) (b : Bool),
    evoInv needed m0 s → evoInv needed m0 (evoPass needed l s b).1 := by
  intro l
  induction l with
  | nil => intro s b h; exact h
  | cons p rest ih =>
    intro s b h
    exact ih _ _ (evoStep_inv p h)

/-- The Evolving while-loop preserves the loop invariant. -/
lemma evoLoop_inv {needed m0 : List (ℕ × ℚ)} : ∀ (fuel maxe : ℕ) (s : EvoState) (b : Bool),
    evoInv needed m0 s → evoInv needed m0 (evoLoop needed maxe fuel s b) := by
  intro fuel
  induction fuel with
  | zero => intro maxe s b h; exact h
  | succ n ih =>
    intro maxe s b h
    unfold evoLoop
    by_cases hc : b = true ∧ s.count < maxe
    · rw [if_pos hc]
      exact ih maxe _ _ (evoPass_inv _ _ _ h)
    · rw [if_neg hc]
      exact h

/-- C7 amended: the Evolving loop scans the collection in quality
descending order and issues an upgrade only for an individual whose
species satisfies evolves[id] - needed[id] > 0 at issue time, with needed
fixed at loop start; since the evolve dict only decreases, every issued
mutation is for a species whose initial evolves[id] - needed[id] is
positive, and species failing that are never upgraded. -/
theorem c7_issued_budget (needed : List (ℕ × ℚ)) (maxe : ℕ) (s : EvoState)
    (h0 : ∀ q ∈ s.issued, budgetOK needed s.evolves q) :
    ∀ p ∈ (run_evolve needed maxe s).issued, budgetOK needed s.evolves p := by
  have hinv : evoInv needed s.evolves { s with pokemon := sortByIvDesc s.pokemon } :=
    ⟨evolvesLe_refl _, h0⟩
  exact (evoLoop_inv _ maxe _ true hinv).2

/-- C7 witness: the amended statement evaluated on the C2 collection run:
the first issued upgrade is for a species with positive initial budget. -/
theorem c7_witness : budgetOK neededC2 s0C2.evolves p1C2 :=
  c7_issued_budget neededC2 71 s0C2
    (fun q hq => absurd hq (List.not_mem_nil q)) p1C2
    (by with_unfolding_all decide)

/-- C8 counterexample: the claim says each confirmed upgrade updates the
local family balance mirror by minus unitCost plus 2.  After the confirmed
upgrade of the cost-12 base form with balance 10, the remaining family
member still carries candy 10, not 10 - 12 + 2 = 0. -/
theorem c8_counterexample :
    (run_main 1 cfgC8 (fun _ => true) [p1C8, p2C8]).toOption.map
      (fun r => (r.evoFinal.issued.length, r.evoFinal.pokemon.map Pok.candy)) =
      some (1, [10]) ∧
    ¬ ((10 : ℚ) = 10 - 12 + 2) := by
  constructor
  · with_unfolding_all decide
  · norm_num

/-- One Evolving step never adds individuals to the local collection. -/
lemma evoStep_pokemon_subset (needed : List (ℕ × ℚ)) (p : Pok) (s : EvoState) :
    (evoStep needed p s).1.pokemon ⊆ s.pokemon := by
  by_cases herr : s.err = true
  · simp [evoStep, herr]
  · rw [Bool.not_eq_true] at herr
    cases he : lookupK p.number s.evolves with
    | none => simp [evoStep, herr, he]
    | some e =>
      cases hn : lookupK p.number needed with
      | none => simp [evoStep, herr, he, hn]
      | some n =>
        by_cases hpos : 0 < e - n
        · cases hu : lookupK p.number s.uniques with
          | none => simp [evoStep, herr, he, hn, hu, hpos]
          | some u =>
            simp [evoStep, herr, he, hn, hu, hpos]
            exact List.erase_subset p s.pokemon
        · simp [evoStep, herr, he, hn, hpos]

/-- An Evolving pass never adds individuals to the local collection. -/
lemma evoPass_pokemon_subset (needed : List (ℕ × ℚ)) : ∀ (l : List Pok) (s : EvoState) (b : Bool),
    (evoPass needed l s b).1.pokemon ⊆ s.pokemon := by
  intro l
  induction l with
  | nil => intro s b; exact List.Subset.refl _
  | cons p rest ih =>
    intro s b
    exact List.Subset.trans (ih _ _) (evoStep_pokemon_subset needed p s)

/-- The Evolving while-loop never adds individuals to the collection. -/
lemma evoLoop_pokemon_subset (needed : List (ℕ × ℚ)) :
    ∀ (fuel maxe : ℕ) (s : EvoState) (b : Bool),
    (evoLoop needed maxe fuel s b).pokemon ⊆ s.pokemon := by
  intro fuel
  induction fuel with
  | zero => intro maxe s b; exact List.Subset.refl _
  | succ n ih =>
    intro maxe s b
    unfold evoLoop
    by_cases hc : b = true ∧ s.count < maxe
    · rw [if_pos hc]
      exact List.Subset.trans (ih maxe _ _) (evoPass_pokemon_subset needed _ _ _)
    · rw [if_neg hc]
      exact List.Subset.refl _

/-- C8 amended: a confirmed upgrade never touches any candy balance
mirror: every individual still in the collection after the Evolving loop
is one of the original input records, with its candy field unchanged; the
loop instead decrements the cached per-species evolve and unique counts. -/
theorem c8_candy_untouched (needed : List (ℕ × ℚ)) (maxe : ℕ) (s : EvoState) (p : Pok)
    (hp : p ∈ (run_evolve needed maxe s).pokemon) : p ∈ s.pokemon := by
  unfold run_evolve at hp
  have h1 : p ∈ sortByIvDesc s.pokemon := evoLoop_pokemon_subset needed _ maxe _ true hp
  have h2 : List.Perm (sortByIvDesc s.pokemon) s.pokemon := by
    unfold sortByIvDesc
    exact List.perm_insertionSort (fun a b => b.iv ≤ a.iv) s.pokemon
  exact h2.mem_iff.mp h1

/-- C8 witness: the evolved-form family member survives the C8 run as an
unchanged input record. -/
theorem c8_witness : p2C8 ∈ s0C8.pokemon :=
  c8_candy_untouched neededC8 71 s0C8 p2C8 (by with_unfolding_all decide)

/-- Membership in the set difference of the selection. -/
lemma mem_setDiff {l b : List Pok} {p : Pok} : p ∈ setDiff l b ↔ p ∈ l ∧ ¬ p ∈ b := by
  simp [setDiff, List.mem_filter]

/-- C9 counterexample: the claim says keep and surplus partition the input
in both selection modes for every collection.  In best-of-family mode, a
collection with a duplicate below the threshold produces no partition at
all: the selection raises NameError. -/
theorem c9_counterexample :
    get_best_pokemon [p1C9, p2C9] 101 = Except.error PyError.nameError := by
  with_unfolding_all rfl

/-- The successful branches of get_best_pokemon append every processed
individual, so a returned selection is the whole (sorted) input. -/
lemma bestAcc_ok (ivmin : ℚ) : ∀ (l acc best : List Pok),
    bestAcc ivmin l acc = Except.ok best → best = acc ++ l := by
  intro l
  induction l with
  | nil =>
    intro acc best h
    simp only [bestAcc] at h
    simp [Except.ok.inj h]
  | cons p rest ih =>
    intro acc best h
    unfold bestAcc at h
    by_cases h1 : (acc.any (fun x => x.number == p.number)) = true
    · rw [h1] at h
      simp only [Bool.not_true, Bool.false_eq_true, if_false] at h
      by_cases h2 : ivmin ≤ p.iv
      · rw [if_pos h2] at h
        have := ih _ _ h
        simp [this]
      · rw [if_neg h2] at h
        cases h
    · rw [Bool.not_eq_true] at h1
      rw [h1] at h
      simp only [Bool.not_false, if_true] at h
      have := ih _ _ h
      simp [this]

/-- C9 amended: in hard-minimum mode keep and surplus always partition the
input exactly; in best-of-family mode they partition it whenever the
selection completes, but then the surplus is empty, because every
successful branch of the selection keeps the individual (a duplicate
below the threshold instead raises NameError). -/
theorem c9_partition :
    (∀ (pokemon : List Pok) (ivmin : ℚ),
       List.Perm (get_above_iv pokemon ivmin ++ setDiff pokemon (get_above_iv pokemon ivmin))
         pokemon ∧
       ∀ p ∈ setDiff pokemon (get_above_iv pokemon ivmin), ¬ p ∈ get_above_iv pokemon ivmin) ∧
    (∀ (pokemon : List Pok) (ivmin : ℚ) (best : List Pok),
       get_best_pokemon pokemon ivmin = Except.ok best →
       List.Perm (best ++ setDiff pokemon best) pokemon ∧ setDiff pokemon best = []) := by
  constructor
  · intro pokemon ivmin
    refine ⟨?_, fun p hp => (mem_setDiff.mp hp).2⟩
    by_cases hemp : pokemon.isEmpty
    · have hnil : pokemon = [] := by
        cases pokemon with
        | nil => rfl
        | cons a l => simp [List.isEmpty] at hemp
      subst hnil
      simp [get_above_iv, setDiff]
    · have hga : get_above_iv pokemon ivmin =
          (sortByIvDesc pokemon).filter (fun p => decide (ivmin ≤ p.iv)) := by
        simp [get_above_iv, hemp]
      have hs : List.Perm (sortByIvDesc pokemon) pokemon := by
        unfold sortByIvDesc
        exact List.perm_insertionSort _ _
      have hperm : List.Perm (get_above_iv pokemon ivmin)
          (pokemon.filter (fun p => decide (ivmin ≤ p.iv))) := by
        rw [hga]
        exact hs.filter _
      have hmem : ∀ p : Pok, p ∈ get_above_iv pokemon ivmin ↔
          p ∈ pokemon ∧ decide (ivmin ≤ p.iv) = true := by
        intro p
        rw [hperm.mem_iff, List.mem_filter]
      have hsd : setDiff pokemon (get_above_iv pokemon ivmin) =
          pokemon.filter (fun p => !(decide (ivmin ≤ p.iv))) := by
        unfold setDiff
        apply List.filter_congr
        intro x hx
        have hcx : (get_above_iv pokemon ivmin).contains x = decide (ivmin ≤ x.iv) := by
          apply bool_eq_of_iff
          constructor
          · intro hc
            have hxmem : x ∈ get_above_iv pokemon ivmin := by simpa using hc
            exact ((hmem x).mp hxmem).2
          · intro hPx
            have hxmem : x ∈ get_above_iv pokemon ivmin := (hmem x).mpr ⟨hx, hPx⟩
            simpa using hxmem
        rw [hcx]
      have h1 : List.Perm
          (get_above_iv pokemon ivmin ++ setDiff pokemon (get_above_iv pokemon ivmin))
          (pokemon.filter (fun p => decide (ivmin ≤ p.iv)) ++
            pokemon.filter (fun p => !(decide (ivmin ≤ p.iv)))) := by
        rw [hsd]
        exact hperm.append (List.Perm.refl _)
      exact h1.trans (List.filter_append_perm _ pokemon)
  · intro pokemon ivmin best h
    unfold get_best_pokemon at h
    by_cases hemp : pokemon.isEmpty
    · have hnil : pokemon = [] := by
        cases pokemon with
        | nil => rfl
        | cons a l => simp [List.isEmpty] at hemp
      subst hnil
      have hbest : [] = best := by simpa using h
      rw [← hbest]
      exact ⟨List.Perm.refl _, rfl⟩
    · rw [if_neg (by simpa using hemp)] at h
      have hb : best = sortByIvDesc pokemon := by
        simpa using bestAcc_ok ivmin _ _ _ h
      have hperm : List.Perm best pokemon := by
        rw [hb]
        unfold sortByIvDesc
        exact List.perm_insertionSort _ _
      have hall : ∀ x ∈ pokemon, x ∈ best := fun x hx => hperm.mem_iff.mpr hx
      have hsd : setDiff pokemon best = [] := by
        apply List.filter_eq_nil_iff.mpr
        intro a ha
        simp only [Bool.not_eq_true, Bool.not_eq_false]
        simpa using hall a ha
      refine ⟨?_, hsd⟩
      rw [hsd, List.append_nil]
      exact hperm

/-- C9 witness: the partition conclusion of the best-of-family branch
evaluated on a single-individual collection, where the selection
succeeds. -/
theorem c9_witness :
    List.Perm (([pW9] : List Pok) ++ setDiff [pW9] [pW9]) [pW9] ∧ setDiff [pW9] [pW9] = [] :=
  c9_partition.2 [pW9] 101 [pW9] (by with_unfolding_all rfl)

/-- C10: with evolving and transferring both enabled, the surplus list is
computed before the Evolving loop and never pruned, so one individual can
receive both an upgrade mutation and a removal mutation in a single run:
on the concrete two-individual family, the weak duplicate is evolved by
the Evolving loop and then transferred by the Transferring loop. -/
theorem c10_double_mutation :
    (run_main 1 cfgC10 (fun _ => true) [p1C10, p2C10]).toOption.map
      (fun r => (r.evoFinal.issued.contains p2C10, r.transFinal.issued.contains p2C10)) =
      some (true, true) := by
  with_unfolding_all decide

end PokeIV
